import Mathlib

/-!
Shallow embedding of the funding-rate aggregator in `src/index.ts`
(Perps Funding Pulse).  Numeric JavaScript values are modelled as `ℚ`
(with `ℤ`/`ℕ` where the source value is integral by construction), a
nullable/optional JSON field is an `Option`, a thrown error is the
`Except.error` branch, and the ambient wall clock / network responses
are explicit parameters.
-/

namespace PerpsFundingPulse

/-- One row of the output schema (`FundingOutputSchema.markets` element).
`skew`, `mark_price`, `index_price` are declared nullable in the zod
schema, hence `Option ℚ` here. -/
structure FundingRecord where
  venue : String
  market : String
  funding_rate : ℚ
  time_to_next : ℚ
  open_interest : ℚ
  skew : Option ℚ
  mark_price : Option ℚ
  index_price : Option ℚ
  timestamp : String
deriving DecidableEq, Repr

/-- The successful output payload of the entrypoint handler
(`total_markets`, `markets`, `timestamp`). -/
structure Output where
  total_markets : Nat
  markets : List FundingRecord
  timestamp : String
deriving DecidableEq, Repr

/-- The ambient clock: the UTC hour/minute/second components read by
`calculateTimeToNextFunding` via `new Date()`, the epoch milliseconds
read by `Date.now()`, and the ISO string produced by
`new Date().toISOString()`. -/
structure Now where
  hour : Nat
  minute : Nat
  second : Nat
  ms : Nat
  iso : String
deriving DecidableEq, Repr

/-- Static venue configuration table `VENUE_CONFIG`: display name,
base URL, enabled flag. -/
structure VenueConfig where
  name : String
  api_url : String
  enabled : Bool
deriving DecidableEq, Repr

/-- `VENUE_CONFIG` from the source, as an association list in the
object's key order. -/
def VENUE_CONFIG : List (String × VenueConfig) :=
  [ ("binance", ⟨"Binance Futures", "https://fapi.binance.com", true⟩),
    ("bybit", ⟨"Bybit", "https://api.bybit.com", true⟩),
    ("okx", ⟨"OKX", "https://www.okx.com", true⟩),
    ("hyperliquid", ⟨"Hyperliquid", "https://api.hyperliquid.xyz", true⟩) ]

/-- `getSupportedVenues()`: the enabled entries' keys. -/
def getSupportedVenues : List String :=
  (VENUE_CONFIG.filter (fun p => p.2.enabled)).map (fun p => p.1)

/-- `calculateTimeToNextFunding()` as a function of the current UTC
hour/minute/second.  The source takes
`nextHour = [0,8,16].find(h => h > currentHour) ?? 24`, converts the
hour gap to seconds, subtracts the elapsed minutes and seconds, and
clamps at zero (`Math.max(0, Math.floor(...))`; the argument is already
integral, so `Math.floor` is the identity). -/
def calculateTimeToNextFunding (hour minute second : Nat) : ℤ :=
  let nextFundingHours : List Nat := [0, 8, 16]
  let nextHour : Nat := (nextFundingHours.find? (fun h => h > hour)).getD 24
  let hoursUntil : ℤ :=
    if nextHour = 24 then (24 : ℤ) - (hour : ℤ) else (nextHour : ℤ) - (hour : ℤ)
  let timeToNext : ℤ := hoursUntil * 3600 - ((minute : ℤ) * 60 + (second : ℤ))
  max 0 timeToNext

/-- The skew expression repeated verbatim in all four adapters:
`fundingRate !== 0 ? Math.min(Math.max(fundingRate / 0.1, -1.0), 1.0) : 0.0`. -/
def skewOf (fundingRate : ℚ) : ℚ :=
  if fundingRate ≠ 0 then min (max (fundingRate / (1 / 10)) (-1)) 1 else 0

/-- Outcome of one HTTP interaction as seen by an adapter: a thrown
exception anywhere in the `try` block (network failure, JSON parse
failure, ...), a response with `response.ok` false, or a parsed payload. -/
inductive FetchOutcome (α : Type) where
  | exn : FetchOutcome α
  | notOk : FetchOutcome α
  | ok : α → FetchOutcome α
deriving DecidableEq, Repr

/-- Parsed fields the Binance adapter reads: `data.lastFundingRate`,
`data.markPrice`, `data.indexPrice` from the premium-index call and
`oiData.openInterest` from the open-interest call (`none` models a
missing field, or for `openInterest` also a failed second call, since
`oiData` is then `{}` and the `|| '0'` fallback yields 0 either way). -/
structure BinancePayload where
  lastFundingRate : Option ℚ
  markPrice : Option ℚ
  indexPrice : Option ℚ
  openInterest : Option ℚ
deriving DecidableEq, Repr

/-- `fetchBinanceFunding(market)`. -/
def fetchBinanceFunding (market : String) (now : Now) :
    FetchOutcome BinancePayload → Option FundingRecord
  | .exn => none
  | .notOk => none
  | .ok d =>
    let fundingRate := d.lastFundingRate.getD 0 * 100
    let markPrice := d.markPrice.getD 0
    let openInterest := d.openInterest.getD 0 * markPrice
    some { venue := "binance", market := market, funding_rate := fundingRate,
           time_to_next := (calculateTimeToNextFunding now.hour now.minute now.second : ℚ),
           open_interest := openInterest, skew := some (skewOf fundingRate),
           mark_price := some markPrice, index_price := some (d.indexPrice.getD 0),
           timestamp := now.iso }

/-- One element of `data.result.list` in the Bybit ticker response. -/
structure BybitTicker where
  fundingRate : Option ℚ
  markPrice : Option ℚ
  openInterest : Option ℚ
  indexPrice : Option ℚ
deriving DecidableEq, Repr

/-- Parsed fields the Bybit adapter reads: `data.retCode` and
`data.result.list` (the empty list also models a missing `result` or
`list`, which the `!data.result?.list?.length` guard treats the same). -/
structure BybitPayload where
  retCode : ℤ
  list : List BybitTicker
deriving DecidableEq, Repr

/-- `fetchBybitFunding(market)`. -/
def fetchBybitFunding (market : String) (now : Now) :
    FetchOutcome BybitPayload → Option FundingRecord
  | .exn => none
  | .notOk => none
  | .ok d =>
    if d.retCode ≠ 0 then none
    else
      match d.list with
      | [] => none
      | ticker :: _ =>
        let fundingRate := ticker.fundingRate.getD 0 * 100
        let markPrice := ticker.markPrice.getD 0
        let openInterest := ticker.openInterest.getD 0 * markPrice
        some { venue := "bybit", market := market, funding_rate := fundingRate,
               time_to_next := (calculateTimeToNextFunding now.hour now.minute now.second : ℚ),
               open_interest := openInterest, skew := some (skewOf fundingRate),
               mark_price := some markPrice, index_price := some (ticker.indexPrice.getD 0),
               timestamp := now.iso }

/-- One element of `data.data` in the OKX funding-rate response:
`fundingRate` (a decimal string, parsed with `parseFloat`) and
`fundingTime` (an epoch-millisecond string, parsed with `parseInt`). -/
structure OkxFundingData where
  fundingRate : Option ℚ
  fundingTime : Option ℤ
deriving DecidableEq, Repr

/-- Parsed fields the OKX adapter reads: `data.code` and `data.data`. -/
structure OkxPayload where
  code : String
  data : List OkxFundingData
deriving DecidableEq, Repr

/-- `fetchOkxFunding(market)`.  Note `time_to_next` here is
`parseInt(fundingTime || '0', 10) / 1000 - Date.now() / 1000`, a plain
difference with no flooring and no clamping. -/
def fetchOkxFunding (market : String) (now : Now) :
    FetchOutcome OkxPayload → Option FundingRecord
  | .exn => none
  | .notOk => none
  | .ok d =>
    if d.code ≠ "0" then none
    else
      match d.data with
      | [] => none
      | fundingData :: _ =>
        let fundingRate := fundingData.fundingRate.getD 0 * 100
        some { venue := "okx", market := market, funding_rate := fundingRate,
               time_to_next :=
                 ((fundingData.fundingTime.getD 0 : ℚ)) / 1000 - (now.ms : ℚ) / 1000,
               open_interest := 0, skew := some (skewOf fundingRate),
               mark_price := none, index_price := none,
               timestamp := now.iso }

/-- One element of the Hyperliquid asset-context array `data[1]`. -/
structure HlAssetCtx where
  funding : Option ℚ
  openInterest : Option ℚ
  markPx : Option ℚ
  oraclePx : Option ℚ
deriving DecidableEq, Repr

/-- Parsed fields the Hyperliquid adapter reads: the names of
`data[0].universe` entries and (optionally present) the parallel
asset-context array `data[1]` (`ctxs = none` models `!data[1]`). -/
structure HlPayload where
  univNames : List String
  ctxs : Option (List HlAssetCtx)
deriving DecidableEq, Repr

/-- `market.split('/')[0]`: the base-asset symbol, i.e. everything
before the first `/` (the whole string when there is none). -/
def hlSymbol (market : String) : String :=
  ⟨market.data.takeWhile (fun c => c ≠ '/')⟩

/-- `fetchHyperliquidFunding(market)`.  `findIdx?` models `findIndex`
(`none` ↔ `-1`); an out-of-range index into `data[1]` makes the field
access throw, which the `catch` turns into `null`, hence the `none`
branch of `ctxList[i]?`. -/
def fetchHyperliquidFunding (market : String) (now : Now) :
    FetchOutcome HlPayload → Option FundingRecord
  | .exn => none
  | .notOk => none
  | .ok d =>
    let symbol := hlSymbol market
    match d.univNames.findIdx? (fun n => n == symbol) with
    | none => none
    | some assetIndex =>
      match d.ctxs with
      | none => none
      | some ctxList =>
        match ctxList[assetIndex]? with
        | none => none
        | some assetCtx =>
          let fundingRate := assetCtx.funding.getD 0 * 100
          some { venue := "hyperliquid", market := market, funding_rate := fundingRate,
                 time_to_next := (calculateTimeToNextFunding now.hour now.minute now.second : ℚ),
                 open_interest := assetCtx.openInterest.getD 0,
                 skew := some (skewOf fundingRate),
                 mark_price := some (assetCtx.markPx.getD 0),
                 index_price := some (assetCtx.oraclePx.getD 0),
                 timestamp := now.iso }

/-- The network and clock environment of one aggregation request:
for each venue, the outcome of that venue's HTTP interaction per
market string. -/
structure Network where
  now : Now
  binance : String → FetchOutcome BinancePayload
  bybit : String → FetchOutcome BybitPayload
  okx : String → FetchOutcome OkxPayload
  hyperliquid : String → FetchOutcome HlPayload

/-- The `if/else` dispatch chain inside `fetchFundingData`'s inner loop
(only reached for supported venue IDs; anything else pushes no task,
modelled as `none`). -/
def dispatch (net : Network) (venueId market : String) : Option FundingRecord :=
  if venueId = "binance" then fetchBinanceFunding market net.now (net.binance market)
  else if venueId = "bybit" then fetchBybitFunding market net.now (net.bybit market)
  else if venueId = "okx" then fetchOkxFunding market net.now (net.okx market)
  else if venueId = "hyperliquid" then fetchHyperliquidFunding market net.now (net.hyperliquid market)
  else none

/-- `fetchFundingData(venueIds, markets)`: skip unsupported venues,
dispatch one task per remaining (venue, market) pair in loop order,
await all settlements, and keep the fulfilled non-null values.  The
adapters are total and never reject, so `Promise.allSettled` plus the
fulfilled/non-null filter amounts to `filterMap` over the dispatched
pairs. -/
def fetchFundingData (net : Network) (venueIds markets : List String) :
    List FundingRecord :=
  (venueIds.filter (fun v => getSupportedVenues.contains v)).flatMap
    (fun venueId => markets.filterMap (fun market => dispatch net venueId market))

/-- JavaScript `Array.prototype.join(', ')` on a list of strings. -/
def joinComma : List String → String
  | [] => ""
  | [s] => s
  | s :: rest => s ++ ", " ++ joinComma rest

/-- The message of the error thrown when the aggregator returns no
records. -/
def totalFailureMsg : String := "Failed to fetch funding data from any venue"

/-- The message of the error thrown for unsupported venue IDs. -/
def unsupportedMsg (invalidVenues supportedVenues : List String) : String :=
  "Venues not supported: " ++ joinComma invalidVenues ++ ". Available: " ++
    joinComma supportedVenues

/-- The entrypoint `handler({input})`: reject unsupported venue IDs
before any fetch, aggregate, reject an empty aggregate, otherwise wrap
the records with their count and a timestamp.  A `throw` is the
`Except.error` branch. -/
def handler (net : Network) (venue_ids markets : List String) :
    Except String Output :=
  let supportedVenues := getSupportedVenues
  let invalidVenues := venue_ids.filter (fun v => !supportedVenues.contains v)
  if invalidVenues.length > 0 then
    Except.error (unsupportedMsg invalidVenues supportedVenues)
  else
    let fundingData := fetchFundingData net venue_ids markets
    if fundingData.length = 0 then Except.error totalFailureMsg
    else
      Except.ok { total_markets := fundingData.length, markets := fundingData,
                  timestamp := net.now.iso }

/-- The spec's clamp, written from its words: `clamp(x, lo, hi)` pins
`x` into `[lo, hi]`. -/
def clamp (x lo hi : ℚ) : ℚ := max lo (min x hi)

/-- A sample clock: midnight UTC, epoch millisecond 1000. -/
def sampleNow : Now := ⟨0, 0, 0, 1000, "t"⟩

/-- A Binance payload with every optional field absent. -/
def sampleBinancePayload : BinancePayload := ⟨none, none, none, none⟩

/-- A Bybit payload with success code and one all-absent ticker. -/
def sampleBybitPayload : BybitPayload := ⟨0, [⟨none, none, none, none⟩]⟩

/-- An OKX payload with success code, absent rate, settlement at epoch
millisecond 2000. -/
def sampleOkxPayload : OkxPayload := ⟨"0", [⟨none, some 2000⟩]⟩

/-- A Hyperliquid payload listing the single asset `BTC` with an
all-absent context. -/
def sampleHlPayload : HlPayload := ⟨["BTC"], some [⟨none, none, none, none⟩]⟩

/-- The record `fetchBinanceFunding` builds from `sampleBinancePayload`
at `sampleNow`. -/
def sampleBinanceRec : FundingRecord :=
  ⟨"binance", "m", 0, 28800, 0, some 0, some 0, some 0, "t"⟩

/-- The record `fetchBybitFunding` builds from `sampleBybitPayload`
at `sampleNow`. -/
def sampleBybitRec : FundingRecord :=
  ⟨"bybit", "m", 0, 28800, 0, some 0, some 0, some 0, "t"⟩

/-- The record `fetchOkxFunding` builds from `sampleOkxPayload`
at `sampleNow` (settlement 1 second away). -/
def sampleOkxRec : FundingRecord :=
  ⟨"okx", "m", 0, 1, 0, some 0, none, none, "t"⟩

/-- The record `fetchHyperliquidFunding` builds from `sampleHlPayload`
at `sampleNow`. -/
def sampleHlRec : FundingRecord :=
  ⟨"hyperliquid", "BTC/USDT:USDT", 0, 28800, 0, some 0, some 0, some 0, "t"⟩

/-- A network where the Binance and Bybit calls succeed and the OKX and
Hyperliquid calls throw. -/
def netBoth : Network :=
  ⟨sampleNow, fun _ => .ok sampleBinancePayload, fun _ => .ok sampleBybitPayload,
   fun _ => .exn, fun _ => .exn⟩

/-- A network where only the Bybit call succeeds; every other venue's
call throws. -/
def netOne : Network :=
  ⟨sampleNow, fun _ => .exn, fun _ => .ok sampleBybitPayload,
   fun _ => .exn, fun _ => .exn⟩

/-- A network where every venue's call throws. -/
def netFail : Network :=
  ⟨sampleNow, fun _ => .exn, fun _ => .exn, fun _ => .exn, fun _ => .exn⟩

/-- Evaluation of the Binance adapter on the sample payload. -/
lemma fetchBinance_sample :
    fetchBinanceFunding "m" sampleNow (.ok sampleBinancePayload) = some sampleBinanceRec := by
  simp [fetchBinanceFunding, sampleNow, sampleBinancePayload, sampleBinanceRec, skewOf,
    calculateTimeToNextFunding]

/-- Evaluation of the Bybit adapter on the sample payload. -/
lemma fetchBybit_sample :
    fetchBybitFunding "m" sampleNow (.ok sampleBybitPayload) = some sampleBybitRec := by
  simp [fetchBybitFunding, sampleNow, sampleBybitPayload, sampleBybitRec, skewOf,
    calculateTimeToNextFunding]

/-- Evaluation of the OKX adapter on the sample payload. -/
lemma fetchOkx_sample :
    fetchOkxFunding "m" sampleNow (.ok sampleOkxPayload) = some sampleOkxRec := by
  simp [fetchOkxFunding, sampleNow, sampleOkxPayload, sampleOkxRec, skewOf]
  norm_num

/-- Evaluation of the Hyperliquid adapter on the sample payload. -/
lemma fetchHl_sample :
    fetchHyperliquidFunding "BTC/USDT:USDT" sampleNow (.ok sampleHlPayload) = some sampleHlRec := by
  simp [fetchHyperliquidFunding, sampleNow, sampleHlPayload, sampleHlRec, skewOf,
    calculateTimeToNextFunding, hlSymbol]

/-- The adapters' `min(max(x, -1), 1)` is the spec's `clamp(x, -1, 1)`. -/
lemma min_max_eq_clamp (x : ℚ) : min (max x (-1)) 1 = clamp x (-1) 1 := by
  rw [clamp]
  rcases le_total x (-1) with h | h
  · rw [max_eq_right h, min_eq_left (show (-1 : ℚ) ≤ 1 by norm_num),
      min_eq_left (h.trans (show (-1 : ℚ) ≤ 1 by norm_num)), max_eq_left h]
  · rcases le_total x 1 with h1 | h1
    · rw [max_eq_left h, min_eq_left h1, max_eq_right h]
    · rw [max_eq_left ((show (-1 : ℚ) ≤ 1 by norm_num).trans h1), min_eq_right h1,
        max_eq_right (show (-1 : ℚ) ≤ 1 by norm_num)]

/-- The generic calculator is clamped at zero. -/
lemma calc_nonneg (h m s : Nat) : 0 ≤ calculateTimeToNextFunding h m s :=
  le_max_left 0 _

/-- C1 counterexample: the OKX adapter emits `time_to_next = -1` when
the venue's `fundingTime` is absent (parsed as 0) and the clock reads
epoch millisecond 1000, refuting non-negativity; with
`fundingTime = 1500` at epoch 0 it emits the non-integer `3/2`. -/
theorem C1_counterexample :
    (fetchOkxFunding "m" ⟨0, 0, 0, 1000, "t"⟩
        (.ok ⟨"0", [⟨none, none⟩]⟩)).map FundingRecord.time_to_next = some (-1) ∧
    ¬ (0 : ℚ) ≤ -1 ∧
    (fetchOkxFunding "m" ⟨0, 0, 0, 0, "t"⟩
        (.ok ⟨"0", [⟨none, some 1500⟩]⟩)).map FundingRecord.time_to_next = some (3 / 2) ∧
    (3 / 2 : ℚ).den ≠ 1 := by
  refine ⟨?_, by norm_num, ?_, by norm_num⟩
  · simp [fetchOkxFunding]
  · simp [fetchOkxFunding]
    norm_num

/-- C1 (amended): the generic calculator used by the Binance, Bybit and
Hyperliquid adapters always yields a non-negative integer number of
seconds, so those records' `time_to_next` is a non-negative integer;
the OKX adapter's `time_to_next` equals `fundingTime/1000 − now/1000`
with no flooring or clamping, hence is non-negative only when the
venue's `fundingTime` is not in the past. -/
theorem C1_time_to_next :
    (∀ hour minute second : Nat, 0 ≤ calculateTimeToNextFunding hour minute second) ∧
    (∀ market now o r, fetchBinanceFunding market now o = some r →
      0 ≤ r.time_to_next ∧ r.time_to_next.den = 1) ∧
    (∀ market now o r, fetchBybitFunding market now o = some r →
      0 ≤ r.time_to_next ∧ r.time_to_next.den = 1) ∧
    (∀ market now o r, fetchHyperliquidFunding market now o = some r →
      0 ≤ r.time_to_next ∧ r.time_to_next.den = 1) ∧
    (∀ market now code fr ft rest r,
      fetchOkxFunding market now (.ok ⟨code, ⟨fr, ft⟩ :: rest⟩) = some r →
      r.time_to_next = (ft.getD 0 : ℚ) / 1000 - (now.ms : ℚ) / 1000 ∧
      ((now.ms : ℤ) ≤ ft.getD 0 → 0 ≤ r.time_to_next)) := by
  refine ⟨calc_nonneg, ?_, ?_, ?_, ?_⟩
  · intro market now o r h
    cases o with
    | exn => simp [fetchBinanceFunding] at h
    | notOk => simp [fetchBinanceFunding] at h
    | ok d =>
      simp only [fetchBinanceFunding, Option.some.injEq] at h
      subst h
      exact ⟨by exact_mod_cast Int.cast_nonneg.mpr (calc_nonneg _ _ _), Rat.den_intCast _⟩
  · intro market now o r h
    cases o with
    | exn => simp [fetchBybitFunding] at h
    | notOk => simp [fetchBybitFunding] at h
    | ok d =>
      simp only [fetchBybitFunding] at h
      split at h
      · simp at h
      · split at h
        · simp at h
        · simp only [Option.some.injEq] at h
          subst h
          exact ⟨by exact_mod_cast Int.cast_nonneg.mpr (calc_nonneg _ _ _), Rat.den_intCast _⟩
  · intro market now o r h
    cases o with
    | exn => simp [fetchHyperliquidFunding] at h
    | notOk => simp [fetchHyperliquidFunding] at h
    | ok d =>
      simp only [fetchHyperliquidFunding] at h
      split at h
      · simp at h
      · split at h
        · simp at h
        · split at h
          · simp at h
          · simp only [Option.some.injEq] at h
            subst h
            exact ⟨by exact_mod_cast Int.cast_nonneg.mpr (calc_nonneg _ _ _), Rat.den_intCast _⟩
  · intro market now code fr ft rest r h
    simp only [fetchOkxFunding] at h
    split at h
    · simp at h
    · simp only [Option.some.injEq] at h
      subst h
      refine ⟨rfl, ?_⟩
      intro hle
      have hq : (now.ms : ℚ) ≤ ((ft.getD 0 : ℤ) : ℚ) := by exact_mod_cast hle
      show (0 : ℚ) ≤ ((ft.getD 0 : ℤ) : ℚ) / 1000 - (now.ms : ℚ) / 1000
      linarith [hq]

/-- C1 witness: the amended statement instantiated on the sample
payloads. -/
theorem C1_witness :
    0 ≤ calculateTimeToNextFunding 0 0 0 ∧
    (0 ≤ sampleBinanceRec.time_to_next ∧ sampleBinanceRec.time_to_next.den = 1) ∧
    (0 ≤ sampleBybitRec.time_to_next ∧ sampleBybitRec.time_to_next.den = 1) ∧
    (0 ≤ sampleHlRec.time_to_next ∧ sampleHlRec.time_to_next.den = 1) ∧
    (sampleOkxRec.time_to_next =
        ((some 2000 : Option ℤ).getD 0 : ℚ) / 1000 - (sampleNow.ms : ℚ) / 1000 ∧
      ((sampleNow.ms : ℤ) ≤ (some 2000 : Option ℤ).getD 0 → 0 ≤ sampleOkxRec.time_to_next)) :=
  ⟨C1_time_to_next.1 0 0 0,
   C1_time_to_next.2.1 "m" sampleNow _ _ fetchBinance_sample,
   C1_time_to_next.2.2.1 "m" sampleNow _ _ fetchBybit_sample,
   C1_time_to_next.2.2.2.1 "BTC/USDT:USDT" sampleNow _ _ fetchHl_sample,
   C1_time_to_next.2.2.2.2 "m" sampleNow "0" none (some 2000) [] _ fetchOkx_sample⟩

/-- C2 counterexample: at the boundary instant 08:00:00 UTC the
calculator returns 28800, not 0 as the claim states. -/
theorem C2_counterexample : calculateTimeToNextFunding 8 0 0 ≠ 0 := by decide

/-- C2 (amended): at an instant lying exactly on a scheduled funding
boundary (00:00, 08:00 or 16:00 UTC with zero minutes and seconds) the
calculator returns the full 28800-second interval to the next boundary,
not 0: the strictly-greater-than rule selects the following boundary. -/
theorem C2_boundary_full_interval :
    calculateTimeToNextFunding 0 0 0 = 28800 ∧
    calculateTimeToNextFunding 8 0 0 = 28800 ∧
    calculateTimeToNextFunding 16 0 0 = 28800 := by
  decide

/-- C3: the calculator returns 1 at 07:59:59 UTC, 28800 at exactly
08:00:00 UTC (next boundary 16:00), and 3600 at 23:00:00 UTC (wrapping
to the next day's 00:00). -/
theorem C3_calculator_examples :
    calculateTimeToNextFunding 7 59 59 = 1 ∧
    calculateTimeToNextFunding 8 0 0 = 28800 ∧
    calculateTimeToNextFunding 23 0 0 = 3600 := by
  decide

/-- C4: the adapters' shared skew expression equals
`clamp(r / 0.1, -1, 1)` for nonzero funding rate and 0 at zero, always
lies in `[-1, 1]`, and maps 0.15 to 1 and -0.2 to -1. -/
theorem C4_skew_clamped :
    (∀ r : ℚ, skewOf r = if r = 0 then 0 else clamp (r / (1 / 10)) (-1) 1) ∧
    (∀ r : ℚ, -1 ≤ skewOf r ∧ skewOf r ≤ 1) ∧
    skewOf 0 = 0 ∧ skewOf (3 / 20) = 1 ∧ skewOf (-(1 / 5)) = -1 := by
  have hform : ∀ r : ℚ,
      skewOf r = if r = 0 then 0 else clamp (r / (1 / 10)) (-1) 1 := by
    intro r
    by_cases h : r = 0
    · simp [skewOf, h]
    · simp [skewOf, h, min_max_eq_clamp]
  refine ⟨hform, ?_, ?_, ?_, ?_⟩
  · intro r
    by_cases h : r = 0
    · constructor <;> simp [skewOf, h]
    · rw [skewOf, if_pos h]
      exact ⟨le_min (le_max_right _ _) (by norm_num), min_le_right _ _⟩
  · simp [skewOf]
  · rw [skewOf]
    norm_num [min_def, max_def]
  · rw [skewOf]
    norm_num [min_def, max_def]

/-- Requests over supported venues only produce an empty invalid-venue
filter. -/
lemma filter_invalid_eq_nil {ids : List String}
    (hsup : ∀ v ∈ ids, v ∈ getSupportedVenues) :
    ids.filter (fun v => !getSupportedVenues.contains v) = [] := by
  rw [List.filter_eq_nil_iff]
  intro v hv
  simp [hsup v hv]

/-- On a request naming only supported venues, the handler reduces to
the empty-aggregate test. -/
lemma handler_supported (net : Network) (ids mkts : List String)
    (hsup : ∀ v ∈ ids, v ∈ getSupportedVenues) :
    handler net ids mkts =
      if (fetchFundingData net ids mkts).length = 0 then Except.error totalFailureMsg
      else Except.ok ⟨(fetchFundingData net ids mkts).length,
                      fetchFundingData net ids mkts, net.now.iso⟩ := by
  simp only [handler, filter_invalid_eq_nil hsup]
  simp

/-- C5 counterexample: a request for a supported venue with an empty
market list (zero venue/market pairs dispatched) receives the very same
total-failure error as a request on which every fetch failed, so the
handler errors without any pair being requested and the two cases are
not distinguishable. -/
theorem C5_counterexample :
    handler netBoth ["binance"] ([] : List String) = Except.error totalFailureMsg ∧
    handler netFail ["binance"] ["m"] = Except.error totalFailureMsg := ⟨rfl, rfl⟩

/-- C5 (amended): over supported venues the handler signals the
total-failure error exactly when the aggregator produced zero records,
whether or not any venue/market pair was requested; a zero-markets
request receives the same error as a total failure. -/
theorem C5_total_failure :
    ∀ net ids mkts, (∀ v ∈ ids, v ∈ getSupportedVenues) →
      (handler net ids mkts = Except.error totalFailureMsg ↔
        fetchFundingData net ids mkts = []) := by
  intro net ids mkts hsup
  rw [handler_supported net ids mkts hsup]
  by_cases hlen : (fetchFundingData net ids mkts).length = 0
  · simp [hlen, List.length_eq_zero.mp hlen]
  · simp [hlen, ← List.length_eq_zero]

/-- C5 witness: the amended statement instantiated on the all-failing
network. -/
theorem C5_witness : handler netFail ["binance"] ["m"] = Except.error totalFailureMsg :=
  (C5_total_failure netFail ["binance"] ["m"] (by decide)).mpr rfl

/-- The aggregate of the single-success network over one pair. -/
lemma ffd_netOne : fetchFundingData netOne ["bybit"] ["m"] = [sampleBybitRec] := by
  simp [fetchFundingData, dispatch, netOne, fetchBybit_sample, getSupportedVenues, VENUE_CONFIG]

/-- C7: over supported venues a non-empty aggregate is returned as-is
with `total_markets` equal to its length; concretely, Binance failing
and Bybit succeeding over one market yields `total_markets = 1` (no
error), and both succeeding yields `total_markets = 2`. -/
theorem C7_aggregation :
    (∀ net ids mkts, (∀ v ∈ ids, v ∈ getSupportedVenues) →
      fetchFundingData net ids mkts ≠ [] →
      handler net ids mkts =
        Except.ok ⟨(fetchFundingData net ids mkts).length,
                   fetchFundingData net ids mkts, net.now.iso⟩) ∧
    (handler netOne ["binance", "bybit"] ["BTC/USDT:USDT"]).map Output.total_markets =
      Except.ok 1 ∧
    (handler netBoth ["binance", "bybit"] ["BTC/USDT:USDT"]).map Output.total_markets =
      Except.ok 2 := by
  refine ⟨?_, rfl, rfl⟩
  intro net ids mkts hsup hne
  rw [handler_supported net ids mkts hsup, if_neg (mt List.length_eq_zero.mp hne)]

/-- C7 witness: the general clause instantiated on the single-success
network. -/
theorem C7_witness :
    handler netOne ["bybit"] ["m"] =
      Except.ok ⟨(fetchFundingData netOne ["bybit"] ["m"]).length,
                 fetchFundingData netOne ["bybit"] ["m"], netOne.now.iso⟩ :=
  C7_aggregation.1 netOne ["bybit"] ["m"] (by decide) (by simp [ffd_netOne])

/-- Every element of a list occurs contiguously in its comma join. -/
lemma mem_joinComma (v : String) (l : List String) (hv : v ∈ l) :
    ∃ p q, (joinComma l).data = p ++ v.data ++ q := by
  induction l with
  | nil => cases hv
  | cons a t ih =>
    cases t with
    | nil =>
      rcases List.mem_singleton.mp hv with rfl
      exact ⟨[], [], by simp [joinComma]⟩
    | cons b t2 =>
      rcases List.mem_cons.mp hv with rfl | hv2
      · exact ⟨[], (", " ++ joinComma (b :: t2)).data, by
          simp [joinComma, String.data_append, List.append_assoc]⟩
      · obtain ⟨p, q, hpq⟩ := ih hv2
        refine ⟨(a ++ ", ").data ++ p, q, ?_⟩
        simp [joinComma, String.data_append, hpq, List.append_assoc]

/-- A request naming an unsupported venue makes the handler throw the
unsupported-venues error, independent of the network environment. -/
lemma handler_invalid (net : Network) (ids mkts : List String)
    (hbad : ∃ v ∈ ids, v ∉ getSupportedVenues) :
    handler net ids mkts =
      Except.error (unsupportedMsg (ids.filter (fun v => !getSupportedVenues.contains v))
        getSupportedVenues) := by
  obtain ⟨v0, hv0, hv0f⟩ := hbad
  have hmem : v0 ∈ ids.filter (fun v => !getSupportedVenues.contains v) :=
    List.mem_filter.mpr ⟨hv0, by simp [hv0f]⟩
  have hpos : 0 < (ids.filter (fun v => !getSupportedVenues.contains v)).length :=
    List.length_pos.mpr (List.ne_nil_of_mem hmem)
  simp only [handler]
  rw [if_pos hpos]

/-- C6: when some requested venue ID is unsupported the handler fails
identically under every network environment and market list (so before
any fetch is dispatched), with an error message that contains every
offending venue ID and ends with the list of supported venue IDs. -/
theorem C6_unsupported_venue :
    ∀ net net' ids mkts mkts',
      (∃ v ∈ ids, v ∉ getSupportedVenues) →
      handler net ids mkts = handler net' ids mkts' ∧
      ∃ msg, handler net ids mkts = Except.error msg ∧
        (∀ v ∈ ids, v ∉ getSupportedVenues → ∃ p q, msg.data = p ++ v.data ++ q) ∧
        ∃ p, msg.data = p ++ (joinComma getSupportedVenues).data := by
  intro net net' ids mkts mkts' hbad
  refine ⟨(handler_invalid net ids mkts hbad).trans (handler_invalid net' ids mkts' hbad).symm,
    _, handler_invalid net ids mkts hbad, ?_, ?_⟩
  · intro v hv hvf
    have hvm : v ∈ ids.filter (fun v => !getSupportedVenues.contains v) :=
      List.mem_filter.mpr ⟨hv, by simp [hvf]⟩
    obtain ⟨p, q, hpq⟩ := mem_joinComma v _ hvm
    refine ⟨"Venues not supported: ".data ++ p,
      q ++ (". Available: " ++ joinComma getSupportedVenues).data, ?_⟩
    simp only [unsupportedMsg, String.data_append]
    rw [hpq]
    simp [List.append_assoc]
  · refine ⟨("Venues not supported: " ++
      joinComma (ids.filter (fun v => !getSupportedVenues.contains v)) ++ ". Available: ").data, ?_⟩
    simp [unsupportedMsg, String.data_append, List.append_assoc]

/-- C6 witness: the statement instantiated on a request naming the
unsupported venue `dydx`, against two different network environments. -/
theorem C6_witness :
    handler netBoth ["dydx"] ["m"] = handler netFail ["dydx"] [] ∧
    ∃ msg, handler netBoth ["dydx"] ["m"] = Except.error msg ∧
      (∀ v ∈ ["dydx"], v ∉ getSupportedVenues → ∃ p q, msg.data = p ++ v.data ++ q) ∧
      ∃ p, msg.data = p ++ (joinComma getSupportedVenues).data :=
  C6_unsupported_venue netBoth netFail ["dydx"] ["m"] [] ⟨"dydx", by decide, by decide⟩

/-- C8: no adapter lets a failure escape: a thrown exception or a
non-success HTTP status yields `none` for every adapter, as do the
malformed-payload cases each adapter checks (Bybit non-zero `retCode`
or empty list, OKX non-`"0"` code or empty data, Hyperliquid asset not
found in the universe or missing context array). -/
theorem C8_no_raise :
    (∀ market now, fetchBinanceFunding market now .exn = none ∧
      fetchBinanceFunding market now .notOk = none) ∧
    (∀ market now, fetchBybitFunding market now .exn = none ∧
      fetchBybitFunding market now .notOk = none) ∧
    (∀ market now, fetchOkxFunding market now .exn = none ∧
      fetchOkxFunding market now .notOk = none) ∧
    (∀ market now, fetchHyperliquidFunding market now .exn = none ∧
      fetchHyperliquidFunding market now .notOk = none) ∧
    (∀ market now d, d.retCode ≠ 0 ∨ d.list = [] →
      fetchBybitFunding market now (.ok d) = none) ∧
    (∀ market now d, d.code ≠ "0" ∨ d.data = [] →
      fetchOkxFunding market now (.ok d) = none) ∧
    (∀ market now d,
      d.univNames.findIdx? (fun n => n == hlSymbol market) = none ∨ d.ctxs = none →
      fetchHyperliquidFunding market now (.ok d) = none) := by
  refine ⟨fun _ _ => ⟨rfl, rfl⟩, fun _ _ => ⟨rfl, rfl⟩, fun _ _ => ⟨rfl, rfl⟩,
    fun _ _ => ⟨rfl, rfl⟩, ?_, ?_, ?_⟩
  · intro market now d h
    rcases h with h | h
    · simp [fetchBybitFunding, h]
    · simp [fetchBybitFunding, h]
  · intro market now d h
    rcases h with h | h
    · simp [fetchOkxFunding, h]
    · simp [fetchOkxFunding, h]
  · intro market now d h
    rcases h with h | h
    · simp [fetchHyperliquidFunding, h]
    · cases hidx : d.univNames.findIdx? (fun n => n == hlSymbol market) <;>
        simp [fetchHyperliquidFunding, hidx, h]

/-- C8 witness: the malformed-payload clauses instantiated on concrete
bad payloads. -/
theorem C8_witness :
    fetchBybitFunding "m" sampleNow (.ok ⟨1, []⟩) = none ∧
    fetchOkxFunding "m" sampleNow (.ok ⟨"51001", []⟩) = none ∧
    fetchHyperliquidFunding "BTC/USDT:USDT" sampleNow (.ok ⟨[], none⟩) = none :=
  ⟨C8_no_raise.2.2.2.2.1 "m" sampleNow ⟨1, []⟩ (Or.inl (by decide)),
   C8_no_raise.2.2.2.2.2.1 "m" sampleNow ⟨"51001", []⟩ (Or.inl (by decide)),
   C8_no_raise.2.2.2.2.2.2 "BTC/USDT:USDT" sampleNow ⟨[], none⟩ (Or.inl rfl)⟩

/-- C9 counterexample: the Binance adapter copies the venue's parsed
numbers into `open_interest` without clamping, so a payload carrying a
negative open-interest figure produces a record with
`open_interest = -50 < 0`. -/
theorem C9_counterexample :
    (fetchBinanceFunding "BTC/USDT:USDT" sampleNow
        (.ok ⟨some 0, some 10, some 10, some (-5)⟩)).map FundingRecord.open_interest =
      some (-50) ∧
    ¬ (0 : ℚ) ≤ -50 := by
  constructor
  · simp [fetchBinanceFunding, sampleNow]
    norm_num
  · norm_num

/-- C9 (amended): `open_interest` is non-negative in every record whose
venue payload carries non-negative parsed open-interest and mark-price
values, and is `0` when the venue has no matching open-interest data
(absent Binance field; always for OKX); the code does not clamp, so a
negative payload value flows through. -/
theorem C9_open_interest :
    (∀ market now d r, fetchBinanceFunding market now (.ok d) = some r →
      (0 ≤ d.openInterest.getD 0 → 0 ≤ d.markPrice.getD 0 → 0 ≤ r.open_interest) ∧
      (d.openInterest = none → r.open_interest = 0)) ∧
    (∀ market now retCode ticker rest r,
      fetchBybitFunding market now (.ok ⟨retCode, ticker :: rest⟩) = some r →
      (0 ≤ ticker.openInterest.getD 0 → 0 ≤ ticker.markPrice.getD 0 → 0 ≤ r.open_interest) ∧
      (ticker.openInterest = none → r.open_interest = 0)) ∧
    (∀ market now o r, fetchOkxFunding market now o = some r → r.open_interest = 0) ∧
    (∀ market now d r, fetchHyperliquidFunding market now (.ok d) = some r →
      (∀ ctx ∈ d.ctxs.getD [], 0 ≤ ctx.openInterest.getD 0) → 0 ≤ r.open_interest) := by
  refine ⟨?_, ?_, ?_, ?_⟩
  · intro market now d r h
    simp only [fetchBinanceFunding, Option.some.injEq] at h
    subst h
    constructor
    · intro ho hm
      exact mul_nonneg ho hm
    · intro hnone
      simp [hnone]
  · intro market now retCode ticker rest r h
    simp only [fetchBybitFunding] at h
    split at h
    · simp at h
    · simp only [Option.some.injEq] at h
      subst h
      constructor
      · intro ho hm
        exact mul_nonneg ho hm
      · intro hnone
        simp [hnone]
  · intro market now o r h
    cases o with
    | exn => simp [fetchOkxFunding] at h
    | notOk => simp [fetchOkxFunding] at h
    | ok d =>
      simp only [fetchOkxFunding] at h
      split at h
      · simp at h
      · split at h
        · simp at h
        · simp only [Option.some.injEq] at h
          subst h
          rfl
  · intro market now d r h hall
    simp only [fetchHyperliquidFunding] at h
    cases hidx : d.univNames.findIdx? (fun n => n == hlSymbol market) with
    | none => simp only [hidx] at h; simp at h
    | some i =>
      simp only [hidx] at h
      cases hc : d.ctxs with
      | none => simp only [hc] at h; simp at h
      | some ctxList =>
        simp only [hc] at h
        cases hg : ctxList[i]? with
        | none => simp only [hg] at h; simp at h
        | some ctx =>
          simp only [hg, Option.some.injEq] at h
          subst h
          have hmem : ctx ∈ ctxList := List.getElem?_mem hg
          have := hall ctx (by rw [hc]; simpa using hmem)
          simpa using this

/-- C9 witness: the amended statement instantiated on the sample
payloads (all open-interest data absent, hence zero). -/
theorem C9_witness :
    0 ≤ sampleBinanceRec.open_interest ∧
    sampleBinanceRec.open_interest = 0 ∧
    sampleOkxRec.open_interest = 0 ∧
    0 ≤ sampleHlRec.open_interest :=
  ⟨(C9_open_interest.1 "m" sampleNow sampleBinancePayload sampleBinanceRec
      fetchBinance_sample).1 (by norm_num [sampleBinancePayload])
      (by norm_num [sampleBinancePayload]),
   (C9_open_interest.1 "m" sampleNow sampleBinancePayload sampleBinanceRec
      fetchBinance_sample).2 rfl,
   C9_open_interest.2.2.1 "m" sampleNow _ _ fetchOkx_sample,
   C9_open_interest.2.2.2 "BTC/USDT:USDT" sampleNow sampleHlPayload sampleHlRec
      fetchHl_sample (by rintro ctx hctx; simp [sampleHlPayload] at hctx; subst hctx; norm_num)⟩

/-- C10: although the output schema declares `skew` nullable, every
record any adapter produces carries `skew = some (skewOf funding_rate)`
— it is never `none`. -/
theorem C10_skew_never_null :
    (∀ market now o r, fetchBinanceFunding market now o = some r →
      r.skew = some (skewOf r.funding_rate)) ∧
    (∀ market now o r, fetchBybitFunding market now o = some r →
      r.skew = some (skewOf r.funding_rate)) ∧
    (∀ market now o r, fetchOkxFunding market now o = some r →
      r.skew = some (skewOf r.funding_rate)) ∧
    (∀ market now o r, fetchHyperliquidFunding market now o = some r →
      r.skew = some (skewOf r.funding_rate)) := by
  refine ⟨?_, ?_, ?_, ?_⟩
  · intro market now o r h
    cases o with
    | exn => simp [fetchBinanceFunding] at h
    | notOk => simp [fetchBinanceFunding] at h
    | ok d =>
      simp only [fetchBinanceFunding, Option.some.injEq] at h
      subst h
      rfl
  · intro market now o r h
    cases o with
    | exn => simp [fetchBybitFunding] at h
    | notOk => simp [fetchBybitFunding] at h
    | ok d =>
      simp only [fetchBybitFunding] at h
      split at h
      · simp at h
      · split at h
        · simp at h
        · simp only [Option.some.injEq] at h
          subst h
          rfl
  · intro market now o r h
    cases o with
    | exn => simp [fetchOkxFunding] at h
    | notOk => simp [fetchOkxFunding] at h
    | ok d =>
      simp only [fetchOkxFunding] at h
      split at h
      · simp at h
      · split at h
        · simp at h
        · simp only [Option.some.injEq] at h
          subst h
          rfl
  · intro market now o r h
    cases o with
    | exn => simp [fetchHyperliquidFunding] at h
    | notOk => simp [fetchHyperliquidFunding] at h
    | ok d =>
      simp only [fetchHyperliquidFunding] at h
      split at h
      · simp at h
      · split at h
        · simp at h
        · split at h
          · simp at h
          · simp only [Option.some.injEq] at h
            subst h
            rfl

/-- C10 witness: the statement instantiated on the sample records. -/
theorem C10_witness :
    sampleBinanceRec.skew = some (skewOf sampleBinanceRec.funding_rate) ∧
    sampleOkxRec.skew = some (skewOf sampleOkxRec.funding_rate) :=
  ⟨C10_skew_never_null.1 "m" sampleNow _ _ fetchBinance_sample,
   C10_skew_never_null.2.2.1 "m" sampleNow _ _ fetchOkx_sample⟩

end PerpsFundingPulse
